import Mathlib

/-!
# Verification of the solana-server HTTP facade (src/main.rs)

This file shallowly embeds the request handlers of `src/main.rs` and the
deterministic parts of the libraries they call (the `bs58` base-58 codec, the
`base64` codec, the Solana `Pubkey` string parsing, and the SPL-token /
system-program instruction builders).  The ed25519 primitives of the
`ed25519_dalek` crate (point validation, signing, verification) are the
cryptographic boundary of the program; they are abstracted as an explicit
`DalekOps` record of operations, exactly as the handlers consume them.

Bytes are modelled as natural numbers (`< 256` where it matters), byte
strings as `List Nat`.
-/

/-! ## Generic positional base conversion

`bs58` converts between base-256 (bytes, big-endian) and base-58 digit
strings; the same machinery serves both directions.  `natToDigitsAux` uses an
explicit fuel argument so that it is structurally recursive (and hence
evaluates inside the kernel); every lemma assumes the fuel bounds the value.
-/

/-- Big-endian value of a digit list in base `t`. -/
def beVal (t : Nat) (l : List Nat) : Nat :=
  l.foldl (fun a x => a * t + x) 0

/-- Big-endian base-`t` digits of `n` (most significant first, no leading
zero digit), computed with explicit fuel. -/
def natToDigitsAux (t : Nat) : Nat → Nat → List Nat
  | 0, _ => []
  | fuel+1, n => if n = 0 then [] else natToDigitsAux t fuel (n / t) ++ [n % t]

theorem natToDigitsAux_zero (t fuel : Nat) : natToDigitsAux t fuel 0 = [] := by
  cases fuel <;> simp [natToDigitsAux]

theorem beVal_nil (t : Nat) : beVal t [] = 0 := rfl

theorem beVal_append (t : Nat) (l : List Nat) (d : Nat) :
    beVal t (l ++ [d]) = beVal t l * t + d := by
  simp [beVal, List.foldl_append]

theorem beVal_acc (t : Nat) (l : List Nat) : ∀ a : Nat,
    l.foldl (fun x d => x * t + d) a = a * t ^ l.length + beVal t l := by
  induction l with
  | nil => intro a; simp [beVal]
  | cons d r ih =>
      intro a
      have h1 := ih (a * t + d)
      have h2 := ih d
      simp only [List.foldl_cons, List.length_cons]
      rw [h1]
      have hbe : beVal t (d :: r) = d * t ^ r.length + beVal t r := by
        simpa [beVal] using h2
      rw [hbe]
      ring

theorem beVal_cons (t d : Nat) (r : List Nat) :
    beVal t (d :: r) = d * t ^ r.length + beVal t r := by
  simpa [beVal] using beVal_acc t r d

theorem beVal_lt (t : Nat) (ht : 1 ≤ t) (l : List Nat) (h : ∀ x ∈ l, x < t) :
    beVal t l < t ^ l.length := by
  induction l with
  | nil => simp [beVal]
  | cons d r ih =>
      have hd : d < t := h d (by simp)
      have hr : beVal t r < t ^ r.length := ih (fun x hx => h x (by simp [hx]))
      have hstep : (d + 1) * t ^ r.length = d * t ^ r.length + t ^ r.length := by ring
      have : beVal t (d :: r) < (d + 1) * t ^ r.length := by
        rw [beVal_cons, hstep]; omega
      calc beVal t (d :: r) < (d + 1) * t ^ r.length := this
        _ ≤ t * t ^ r.length := Nat.mul_le_mul_right _ (by omega)
        _ = t ^ (r.length + 1) := by ring
        _ = t ^ (d :: r).length := by simp

theorem beVal_replicate_zero (t z : Nat) (l : List Nat) :
    beVal t (List.replicate z 0 ++ l) = beVal t l := by
  induction z with
  | zero => simp
  | succ z ih =>
      have : List.replicate (z+1) 0 ++ l = 0 :: (List.replicate z 0 ++ l) := by
        simp [List.replicate_succ]
      rw [this]
      simpa [beVal] using ih

theorem beVal_pos (t : Nat) (ht : 1 ≤ t) (d : Nat) (r : List Nat) (hd : d ≠ 0) :
    0 < beVal t (d :: r) := by
  rw [beVal_cons]
  have h1 : 0 < t ^ r.length := Nat.pow_pos (by omega)
  have h2 : 1 * 1 ≤ d * t ^ r.length := Nat.mul_le_mul (by omega) h1
  omega

theorem beVal_natToDigitsAux (t : Nat) (ht : 2 ≤ t) :
    ∀ fuel n, n < t ^ fuel → beVal t (natToDigitsAux t fuel n) = n := by
  intro fuel
  induction fuel with
  | zero =>
      intro n hn
      rw [pow_zero] at hn
      have hn0 : n = 0 := by omega
      subst hn0
      simp [natToDigitsAux, beVal]
  | succ fuel ih =>
      intro n hn
      by_cases h0 : n = 0
      · subst h0; simp [natToDigitsAux, beVal]
      · have hdiv : n / t < t ^ fuel := by
          rw [Nat.div_lt_iff_lt_mul (by omega)]
          calc n < t ^ (fuel + 1) := hn
            _ = t ^ fuel * t := by ring
        simp only [natToDigitsAux, if_neg h0]
        rw [beVal_append, ih _ hdiv]
        exact Nat.div_add_mod' n t

theorem natToDigitsAux_lt (t : Nat) (ht : 1 ≤ t) :
    ∀ fuel n d, d ∈ natToDigitsAux t fuel n → d < t := by
  intro fuel
  induction fuel with
  | zero => intro n d hd; simp [natToDigitsAux] at hd
  | succ fuel ih =>
      intro n d hd
      by_cases h0 : n = 0
      · subst h0; simp [natToDigitsAux] at hd
      · simp only [natToDigitsAux, if_neg h0, List.mem_append, List.mem_singleton] at hd
        rcases hd with hd | hd
        · exact ih _ _ hd
        · subst hd; exact Nat.mod_lt _ (by omega)

theorem natToDigitsAux_ne_nil (t fuel n : Nat) (hn : 0 < n) (hf : 0 < fuel) :
    natToDigitsAux t fuel n ≠ [] := by
  cases fuel with
  | zero => omega
  | succ fuel => simp [natToDigitsAux, Nat.pos_iff_ne_zero.mp hn]

theorem natToDigitsAux_head (t : Nat) (ht : 2 ≤ t) :
    ∀ fuel n, n < t ^ fuel → (natToDigitsAux t fuel n).head? ≠ some 0 := by
  intro fuel
  induction fuel with
  | zero =>
      intro n hn
      rw [pow_zero] at hn
      have hn0 : n = 0 := by omega
      subst hn0
      simp [natToDigitsAux]
  | succ fuel ih =>
      intro n hn
      by_cases h0 : n = 0
      · subst h0; simp [natToDigitsAux]
      · simp only [natToDigitsAux, if_neg h0]
        by_cases hq : n / t = 0
        · have hnt : n < t := by
            rcases Nat.lt_or_ge n t with h | h
            · exact h
            · exact absurd hq (by have := Nat.div_pos h (by omega); omega)
          rw [hq, natToDigitsAux_zero]
          simp only [List.nil_append, List.head?_cons, ne_eq, Option.some.injEq]
          rw [Nat.mod_eq_of_lt hnt]
          exact h0
        · have hdiv : n / t < t ^ fuel := by
            rw [Nat.div_lt_iff_lt_mul (by omega)]
            calc n < t ^ (fuel + 1) := hn
              _ = t ^ fuel * t := by ring
          have hfpos : 0 < fuel := by
            rcases Nat.eq_zero_or_pos fuel with hf | hf
            · subst hf
              rw [pow_zero] at hdiv
              exact absurd (Nat.lt_one_iff.mp hdiv) hq
            · exact hf
          have hne := natToDigitsAux_ne_nil t fuel (n / t) (Nat.pos_of_ne_zero hq) hfpos
          cases hmatch : natToDigitsAux t fuel (n / t) with
          | nil => exact absurd hmatch hne
          | cons a l =>
              have := ih (n / t) hdiv
              rw [hmatch] at this
              simpa using this

theorem natToDigitsAux_of_beVal (t : Nat) (ht : 2 ≤ t) :
    ∀ fuel (ds : List Nat), (∀ d ∈ ds, d < t) → ds.head? ≠ some 0 →
      beVal t ds < t ^ fuel → natToDigitsAux t fuel (beVal t ds) = ds := by
  intro fuel
  induction fuel with
  | zero =>
      intro ds hlt hhead hval
      cases ds with
      | nil => simp [natToDigitsAux]
      | cons d r =>
          have hd : d ≠ 0 := by simpa using hhead
          have := beVal_pos t (by omega) d r hd
          simp at hval
          omega
  | succ fuel ih =>
      intro ds hlt hhead hval
      rcases List.eq_nil_or_concat ds with rfl | ⟨L, b, rfl⟩
      · simp [natToDigitsAux, beVal]
      · simp only [List.concat_eq_append] at hlt hhead hval ⊢
        have hb : b < t := hlt b (by simp)
        have hvds : beVal t (L ++ [b]) = beVal t L * t + b := beVal_append t L b
        have hvpos : 0 < beVal t L * t + b := by
          cases L with
          | nil =>
              have hbne : b ≠ 0 := by simpa using hhead
              have hz : beVal t ([] : List Nat) = 0 := rfl
              rw [hz]
              omega
          | cons h r =>
              have hh : h ≠ 0 := by simpa using hhead
              have h1 : 0 < beVal t (h :: r) := beVal_pos t (by omega) h r hh
              have h2 : 1 * 1 ≤ beVal t (h :: r) * t := Nat.mul_le_mul h1 (by omega)
              omega
        have hdivq : (beVal t L * t + b) / t = beVal t L := by
          rw [Nat.mul_comm, Nat.mul_add_div (by omega)]
          simp [Nat.div_eq_of_lt hb]
        have hmodq : (beVal t L * t + b) % t = b := by
          rw [Nat.mul_comm, Nat.mul_add_mod]
          exact Nat.mod_eq_of_lt hb
        rw [hvds]
        simp only [natToDigitsAux, if_neg (by omega : ¬ (beVal t L * t + b = 0))]
        rw [hdivq, hmodq]
        congr 1
        have hLhead : L.head? ≠ some 0 := by
          cases L with
          | nil => simp
          | cons h r => simpa using hhead
        have hLlt : ∀ d ∈ L, d < t := fun d hd => hlt d (by simp [hd])
        have hLval : beVal t L < t ^ fuel := by
          rw [hvds] at hval
          by_contra hcon
          push_neg at hcon
          have h1 : t ^ (fuel + 1) = t ^ fuel * t := by ring
          have h2 : t ^ fuel * t ≤ beVal t L * t := Nat.mul_le_mul_right _ hcon
          omega
        exact ih L hLlt hLhead hLval

/-! ## Leading zeros and character-wise digit parsing -/

/-- Number of leading `0` entries of a list (used for the `bs58` handling of
leading zero bytes / leading `'1'` characters). -/
def leadZeros : List Nat → Nat
  | [] => 0
  | x :: r => if x = 0 then leadZeros r + 1 else 0

theorem leadZeros_replicate_append (z : Nat) (l : List Nat) (h : l.head? ≠ some 0) :
    leadZeros (List.replicate z 0 ++ l) = z := by
  induction z with
  | zero =>
      cases l with
      | nil => simp [leadZeros]
      | cons x r =>
          have hx : x ≠ 0 := by simpa using h
          simp [leadZeros, hx]
  | succ z ih =>
      have : List.replicate (z+1) 0 ++ l = 0 :: (List.replicate z 0 ++ l) := by
        simp [List.replicate_succ]
      rw [this]
      simp [leadZeros, ih]

theorem replicate_leadZeros_append_drop (l : List Nat) :
    List.replicate (leadZeros l) 0 ++ l.drop (leadZeros l) = l := by
  induction l with
  | nil => simp [leadZeros]
  | cons x r ih =>
      by_cases hx : x = 0
      · subst hx
        have h1 : leadZeros (0 :: r) = leadZeros r + 1 := by simp [leadZeros]
        rw [h1, List.replicate_succ]
        simp only [List.cons_append, List.drop_succ_cons]
        rw [ih]
      · simp [leadZeros, hx]

theorem head?_drop_leadZeros (l : List Nat) :
    (l.drop (leadZeros l)).head? ≠ some 0 := by
  induction l with
  | nil => simp [leadZeros]
  | cons x r ih =>
      by_cases hx : x = 0
      · subst hx
        simpa [leadZeros] using ih
      · simp [leadZeros, hx]

/-- Parse a character list into a digit list via a per-character table;
fails (like `bs58::decode` / `base64::decode`) on the first character
outside the table. -/
def digitsOfChars (f : Char → Option Nat) : List Char → Option (List Nat)
  | [] => some []
  | c :: cs =>
      match f c, digitsOfChars f cs with
      | some d, some ds => some (d :: ds)
      | _, _ => none

theorem digitsOfChars_append (f : Char → Option Nat) (xs ys : List Char)
    (a b : List Nat) (ha : digitsOfChars f xs = some a)
    (hb : digitsOfChars f ys = some b) :
    digitsOfChars f (xs ++ ys) = some (a ++ b) := by
  induction xs generalizing a with
  | nil =>
      simp [digitsOfChars] at ha
      subst ha
      simpa using hb
  | cons c cs ih =>
      simp only [digitsOfChars] at ha
      cases hc : f c with
      | none => rw [hc] at ha; simp at ha
      | some d =>
          rw [hc] at ha
          cases hcs : digitsOfChars f cs with
          | none => rw [hcs] at ha; simp at ha
          | some ds =>
              rw [hcs] at ha
              simp at ha
              subst ha
              have hih := ih ds hcs
              simp only [List.cons_append, digitsOfChars, hc, List.append_eq]
              rw [hih]

theorem digitsOfChars_replicate (f : Char → Option Nat) (c : Char) (v : Nat)
    (hc : f c = some v) (z : Nat) :
    digitsOfChars f (List.replicate z c) = some (List.replicate z v) := by
  induction z with
  | zero => simp [digitsOfChars]
  | succ z ih => simp [List.replicate_succ, digitsOfChars, hc, ih]

theorem digitsOfChars_map (f : Char → Option Nat) (g : Nat → Char) (ds : List Nat)
    (h : ∀ d ∈ ds, f (g d) = some d) :
    digitsOfChars f (ds.map g) = some ds := by
  induction ds with
  | nil => simp [digitsOfChars]
  | cons d r ih =>
      have hd : f (g d) = some d := h d (by simp)
      have hr := ih (fun x hx => h x (by simp [hx]))
      simp [digitsOfChars, hd, hr]

/-! ## Base-58 (the `bs58` crate, Bitcoin alphabet)

`bs58::encode` treats the input bytes as a big-endian number, emits its
base-58 digits, and prepends one `'1'` per leading zero byte.  `bs58::decode`
is the inverse: every character must be in the alphabet, leading `'1'`s
become leading zero bytes, and the remaining value is written out in
big-endian base 256. -/

def B58_ALPHABET : List Char :=
  "123456789ABCDEFGHJKLMNPQRSTUVWXYZabcdefghijkmnopqrstuvwxyz".data

/-- Index of a character in a character table, `none` if absent. -/
def charIdx (c : Char) : List Char → Option Nat
  | [] => none
  | a :: rest => if a = c then some 0 else (charIdx c rest).map (· + 1)

def b58Digit (c : Char) : Option Nat := charIdx c B58_ALPHABET

def b58Char (d : Nat) : Char := B58_ALPHABET.getD d '?'

theorem b58Digit_b58Char : ∀ d, d < 58 → b58Digit (b58Char d) = some d := by
  decide

theorem b58Digit_one : b58Digit '1' = some 0 := by decide

/-- `bs58::encode(bytes).into_string()`. -/
def b58encode (b : List Nat) : String :=
  ⟨List.replicate (leadZeros b) '1' ++
    (natToDigitsAux 58 (2 * b.length + 2) (beVal 256 b)).map b58Char⟩

/-- `bs58::decode(s).into_vec()` (`none` = decode error). -/
def b58decode (s : String) : Option (List Nat) :=
  (digitsOfChars b58Digit s.data).map fun ds =>
    List.replicate (leadZeros ds) 0 ++ natToDigitsAux 256 (ds.length + 1) (beVal 58 ds)

theorem b58_roundtrip (b : List Nat) (hb : ∀ x ∈ b, x < 256) :
    b58decode (b58encode b) = some b := by
  have h58 : (2 : Nat) ≤ 58 := by omega
  have h256 : (2 : Nat) ≤ 256 := by omega
  set z := leadZeros b with hz
  set n := beVal 256 b with hn
  set ds := natToDigitsAux 58 (2 * b.length + 2) n with hds
  -- the value fits in the fuel given to the base-58 digit expansion
  have hfit : n < 58 ^ (2 * b.length + 2) := by
    have h1 : n < 256 ^ b.length := beVal_lt 256 (by omega) b hb
    have h2 : (256 : Nat) ^ b.length ≤ 3364 ^ b.length :=
      Nat.pow_le_pow_left (by omega) _
    have h3 : (58 : Nat) ^ (2 * b.length) = 3364 ^ b.length := by
      rw [pow_mul]
      norm_num
    have h4 : (58 : Nat) ^ (2 * b.length) ≤ 58 ^ (2 * b.length + 2) :=
      Nat.pow_le_pow_right (by omega) (by omega)
    omega
  have hds_lt : ∀ d ∈ ds, d < 58 := fun d hd => natToDigitsAux_lt 58 (by omega) _ _ d hd
  have hds_head : ds.head? ≠ some 0 := natToDigitsAux_head 58 h58 _ n hfit
  have hds_val : beVal 58 ds = n := beVal_natToDigitsAux 58 h58 _ n hfit
  -- character-level decode of the emitted string
  have hchars : digitsOfChars b58Digit (List.replicate z '1' ++ ds.map b58Char)
      = some (List.replicate z 0 ++ ds) := by
    refine digitsOfChars_append _ _ _ _ _ ?_ ?_
    · exact digitsOfChars_replicate _ _ _ b58Digit_one z
    · exact digitsOfChars_map _ _ _ (fun d hd => b58Digit_b58Char d (hds_lt d hd))
  have hdata : (b58encode b).data = List.replicate z '1' ++ ds.map b58Char := rfl
  rw [b58decode, hdata, hchars, Option.map_some']
  -- leading zeros of the decoded digit string
  have hlead : leadZeros (List.replicate z 0 ++ ds) = z :=
    leadZeros_replicate_append z ds hds_head
  have hval : beVal 58 (List.replicate z 0 ++ ds) = n := by
    rw [beVal_replicate_zero, hds_val]
  -- the byte tail recovered from the value
  have htail_decomp : List.replicate z 0 ++ b.drop z = b := by
    rw [hz]; exact replicate_leadZeros_append_drop b
  have htail_head : (b.drop z).head? ≠ some 0 := by
    rw [hz]; exact head?_drop_leadZeros b
  have htail_lt : ∀ x ∈ b.drop z, x < 256 := fun x hx => hb x (List.mem_of_mem_drop hx)
  have hn_tail : beVal 256 (b.drop z) = n := by
    rw [hn]
    conv_rhs => rw [← htail_decomp]
    rw [beVal_replicate_zero]
  have hlen : (List.replicate z 0 ++ ds).length = z + ds.length := by simp
  have hfit2 : beVal 256 (b.drop z) < 256 ^ (z + ds.length + 1) := by
    rw [hn_tail, ← hds_val]
    have h1 : beVal 58 ds < 58 ^ ds.length := beVal_lt 58 (by omega) ds hds_lt
    have h2 : (58 : Nat) ^ ds.length ≤ 256 ^ ds.length := Nat.pow_le_pow_left (by omega) _
    have h3 : (256 : Nat) ^ ds.length ≤ 256 ^ (z + ds.length + 1) :=
      Nat.pow_le_pow_right (by omega) (by omega)
    omega
  have hbytes : natToDigitsAux 256 (z + ds.length + 1) n = b.drop z := by
    rw [← hn_tail]
    exact natToDigitsAux_of_beVal 256 h256 _ _ htail_lt htail_head hfit2
  rw [hlead, hval, hlen, hbytes, htail_decomp]

/-! ## Base-64 (the `base64` crate, standard alphabet with padding)

`base64::encode` packs bytes three at a time into four alphabet characters,
padding the final group with `'='`.  `base64::decode` rejects characters
outside the alphabet, misplaced padding, non-zero trailing bits, and input
whose length is not a multiple of four. -/

def B64_ALPHABET : List Char :=
  "ABCDEFGHIJKLMNOPQRSTUVWXYZabcdefghijklmnopqrstuvwxyz0123456789+/".data

def b64Digit (c : Char) : Option Nat := charIdx c B64_ALPHABET

def b64Char (d : Nat) : Char := B64_ALPHABET.getD d '?'

theorem b64Digit_b64Char : ∀ d, d < 64 → b64Digit (b64Char d) = some d := by
  decide

theorem b64Char_ne_pad : ∀ d, d < 64 → b64Char d ≠ '=' := by
  decide

def b64encodeChars : List Nat → List Char
  | [] => []
  | [x] => [b64Char (x / 4), b64Char (x % 4 * 16), '=', '=']
  | [x, y] => [b64Char (x / 4), b64Char (x % 4 * 16 + y / 16), b64Char (y % 16 * 4), '=']
  | x :: y :: z :: rest =>
      b64Char (x / 4) :: b64Char (x % 4 * 16 + y / 16) ::
        b64Char (y % 16 * 4 + z / 64) :: b64Char (z % 64) :: b64encodeChars rest

/-- `base64::encode(bytes)`. -/
def b64encode (b : List Nat) : String := ⟨b64encodeChars b⟩

def b64decodeChars : List Char → Option (List Nat)
  | [] => some []
  | a :: b :: c :: d :: rest =>
      match b64Digit a, b64Digit b with
      | some da, some db =>
          if c = '=' then
            if d = '=' ∧ rest = [] ∧ db % 16 = 0 then some [da * 4 + db / 16] else none
          else
            match b64Digit c with
            | some dc =>
                if d = '=' then
                  if rest = [] ∧ dc % 4 = 0 then
                    some [da * 4 + db / 16, db % 16 * 16 + dc / 4]
                  else none
                else
                  match b64Digit d with
                  | some dd =>
                      (b64decodeChars rest).map
                        (fun r => (da * 4 + db / 16) :: (db % 16 * 16 + dc / 4) ::
                          (dc % 4 * 64 + dd) :: r)
                  | none => none
            | none => none
      | _, _ => none
  | _ => none

/-- `base64::decode(s)` (`none` = decode error). -/
def b64decode (s : String) : Option (List Nat) := b64decodeChars s.data

theorem b64_roundtrip_chars :
    ∀ b : List Nat, (∀ x ∈ b, x < 256) → b64decodeChars (b64encodeChars b) = some b := by
  intro b
  induction b using b64encodeChars.induct with
  | case1 => intro _; simp [b64encodeChars, b64decodeChars]
  | case2 x =>
      intro hb
      have hx : x < 256 := hb x (by simp)
      have h1 : b64Digit (b64Char (x / 4)) = some (x / 4) :=
        b64Digit_b64Char _ (by omega)
      have h2 : b64Digit (b64Char (x % 4 * 16)) = some (x % 4 * 16) :=
        b64Digit_b64Char _ (by omega)
      simp only [b64encodeChars, b64decodeChars, h1, h2, if_pos rfl]
      have hmod : x % 4 * 16 % 16 = 0 := Nat.mul_mod_left _ _
      have he : x / 4 * 4 + x % 4 * 16 / 16 = x := by omega
      rw [he]
      simp [hmod]
  | case3 x y =>
      intro hb
      have hx : x < 256 := hb x (by simp)
      have hy : y < 256 := hb y (by simp)
      have h1 : b64Digit (b64Char (x / 4)) = some (x / 4) :=
        b64Digit_b64Char _ (by omega)
      have h2 : b64Digit (b64Char (x % 4 * 16 + y / 16)) = some (x % 4 * 16 + y / 16) :=
        b64Digit_b64Char _ (by omega)
      have h3 : b64Digit (b64Char (y % 16 * 4)) = some (y % 16 * 4) :=
        b64Digit_b64Char _ (by omega)
      have hne : b64Char (y % 16 * 4) ≠ '=' := b64Char_ne_pad _ (by omega)
      simp only [b64encodeChars, b64decodeChars, h1, h2, h3, if_neg hne, if_pos rfl]
      have hmod : y % 16 * 4 % 4 = 0 := Nat.mul_mod_left _ _
      have e1 : x / 4 * 4 + (x % 4 * 16 + y / 16) / 16 = x := by omega
      have e2 : (x % 4 * 16 + y / 16) % 16 * 16 + y % 16 * 4 / 4 = y := by omega
      rw [e1, e2]
      simp [hmod]
  | case4 x y z rest ih =>
      intro hb
      have hx : x < 256 := hb x (by simp)
      have hy : y < 256 := hb y (by simp)
      have hz : z < 256 := hb z (by simp)
      have hrest : ∀ v ∈ rest, v < 256 := fun v hv => hb v (by simp [hv])
      have h1 : b64Digit (b64Char (x / 4)) = some (x / 4) :=
        b64Digit_b64Char _ (by omega)
      have h2 : b64Digit (b64Char (x % 4 * 16 + y / 16)) = some (x % 4 * 16 + y / 16) :=
        b64Digit_b64Char _ (by omega)
      have h3 : b64Digit (b64Char (y % 16 * 4 + z / 64)) = some (y % 16 * 4 + z / 64) :=
        b64Digit_b64Char _ (by omega)
      have h4 : b64Digit (b64Char (z % 64)) = some (z % 64) :=
        b64Digit_b64Char _ (by omega)
      have hne3 : b64Char (y % 16 * 4 + z / 64) ≠ '=' := b64Char_ne_pad _ (by omega)
      have hne4 : b64Char (z % 64) ≠ '=' := b64Char_ne_pad _ (by omega)
      simp only [b64encodeChars, b64decodeChars, h1, h2, h3, h4, if_neg hne3, if_neg hne4]
      rw [ih hrest, Option.map_some']
      have e1 : x / 4 * 4 + (x % 4 * 16 + y / 16) / 16 = x := by omega
      have e2 : (x % 4 * 16 + y / 16) % 16 * 16 + (y % 16 * 4 + z / 64) / 4 = y := by omega
      have e3 : (y % 16 * 4 + z / 64) % 4 * 64 + z % 64 = z := by omega
      rw [e1, e2, e3]

theorem b64_roundtrip (b : List Nat) (hb : ∀ x ∈ b, x < 256) :
    b64decode (b64encode b) = some b := by
  have hdata : (b64encode b).data = b64encodeChars b := rfl
  rw [b64decode, hdata]
  exact b64_roundtrip_chars b hb

/-! ## UTF-8 and little-endian integer serialization -/

/-- UTF-8 encoding of one character (Rust `str::as_bytes` operates on the
UTF-8 encoding of the string). -/
def utf8Bytes (c : Char) : List Nat :=
  let n := c.toNat
  if n < 128 then [n]
  else if n < 2048 then [192 + n / 64, 128 + n % 64]
  else if n < 65536 then [224 + n / 4096, 128 + n / 64 % 64, 128 + n % 64]
  else [240 + n / 262144, 128 + n / 4096 % 64, 128 + n / 64 % 64, 128 + n % 64]

/-- `message.as_bytes()`: the UTF-8 bytes of a string. -/
def strBytes (s : String) : List Nat :=
  s.data.foldr (fun c acc => utf8Bytes c ++ acc) []

theorem utf8Bytes_lt (c : Char) : ∀ x ∈ utf8Bytes c, x < 256 := by
  intro x hx
  have hc : c.toNat < 1114112 := by
    rcases c.valid with h | h
    · have h1 : c.toNat < 55296 := h
      omega
    · exact h.2
  unfold utf8Bytes at hx
  by_cases h1 : c.toNat < 128
  · simp [h1] at hx; omega
  · by_cases h2 : c.toNat < 2048
    · simp [h1, h2] at hx
      rcases hx with h | h <;> omega
    · by_cases h3 : c.toNat < 65536
      · simp [h1, h2, h3] at hx
        rcases hx with h | h | h <;> omega
      · simp [h1, h2, h3] at hx
        rcases hx with h | h | h | h <;> omega

theorem strBytes_lt (s : String) : ∀ x ∈ strBytes s, x < 256 := by
  unfold strBytes
  induction s.data with
  | nil => intro x hx; simp at hx
  | cons c cs ih =>
      intro x hx
      simp only [List.foldr_cons, List.mem_append] at hx
      rcases hx with h | h
      · exact utf8Bytes_lt c x h
      · exact ih x h

/-- Little-endian byte serialization on `k` bytes (used by the SPL-token
instruction packing of `u64` amounts and by `bincode` for the system
program's instruction enum). -/
def leBytes : Nat → Nat → List Nat
  | 0, _ => []
  | k+1, n => n % 256 :: leBytes k (n / 256)

theorem leBytes_lt (k n : Nat) : ∀ x ∈ leBytes k n, x < 256 := by
  induction k generalizing n with
  | zero => intro x hx; simp [leBytes] at hx
  | succ k ih =>
      intro x hx
      simp only [leBytes, List.mem_cons] at hx
      rcases hx with h | h
      · omega
      · exact ih _ x h

/-- `u64` little-endian serialization. -/
def u64le (n : Nat) : List Nat := leBytes 8 n

/-! ## Solana SDK model: public keys, program ids, instructions

`Pubkey::from_str` (solana-sdk): reject strings longer than 44 bytes, then
base-58 decode, then require exactly 32 bytes.  `Pubkey`'s `Display` is the
base-58 encoding of its 32 bytes. -/

def pubkeyFromStr (s : String) : Option (List Nat) :=
  if (strBytes s).length > 44 then none
  else match b58decode s with
    | none => none
    | some bytes => if bytes.length = 32 then some bytes else none

def pubkeyToString (pk : List Nat) : String := b58encode pk

/-- The SPL token program id, `spl_token::id()`. -/
def spl_token_id : List Nat :=
  (b58decode "TokenkegQfeZyiNwAJbNbGKPFXCWuBvf9Ss623VQ5DA").getD []

/-- `sysvar::rent::id()`. -/
def sysvar_rent_id : List Nat :=
  (b58decode "SysvarRent111111111111111111111111111111111").getD []

/-- `system_program::id()` (the all-zero key). -/
def system_program_id : List Nat := List.replicate 32 0

structure AccountMeta where
  pubkey : List Nat
  is_signer : Bool
  is_writable : Bool
deriving DecidableEq

/-- `AccountMeta::new` (writable). -/
def AccountMeta.new (pk : List Nat) (signer : Bool) : AccountMeta :=
  ⟨pk, signer, true⟩

/-- `AccountMeta::new_readonly`. -/
def AccountMeta.new_readonly (pk : List Nat) (signer : Bool) : AccountMeta :=
  ⟨pk, signer, false⟩

structure Instruction where
  program_id : List Nat
  accounts : List AccountMeta
  data : List Nat
deriving DecidableEq

/-- `spl_token::check_program_account`. -/
def check_program_account (token_program_id : List Nat) : Except String Unit :=
  if token_program_id = spl_token_id then Except.ok () else Except.error "IncorrectProgramId"

/-- `spl_token::instruction::initialize_mint`.  Payload: tag 0, decimals,
mint authority bytes, `COption`-packed freeze authority. -/
def initialize_mint (token_program_id mint_pubkey mint_authority_pubkey : List Nat)
    (freeze_authority_pubkey : Option (List Nat)) (decimals : Nat) :
    Except String Instruction := do
  let _ ← check_program_account token_program_id
  let data := 0 :: decimals ::
    (mint_authority_pubkey ++ (match freeze_authority_pubkey with
      | none => [0]
      | some k => 1 :: k))
  Except.ok ⟨token_program_id,
    [AccountMeta.new mint_pubkey false, AccountMeta.new_readonly sysvar_rent_id false],
    data⟩

/-- `spl_token::instruction::mint_to`.  Payload: tag 7, `u64` LE amount. -/
def mint_to (token_program_id mint_pubkey account_pubkey owner_pubkey : List Nat)
    (signer_pubkeys : List (List Nat)) (amount : Nat) : Except String Instruction := do
  let _ ← check_program_account token_program_id
  let accounts := [AccountMeta.new mint_pubkey false,
    AccountMeta.new account_pubkey false,
    AccountMeta.new_readonly owner_pubkey signer_pubkeys.isEmpty] ++
    signer_pubkeys.map (fun p => AccountMeta.new_readonly p true)
  Except.ok ⟨token_program_id, accounts, 7 :: u64le amount⟩

/-- `spl_token::instruction::transfer`.  Payload: tag 3, `u64` LE amount. -/
def spl_transfer (token_program_id source_pubkey destination_pubkey authority_pubkey : List Nat)
    (signer_pubkeys : List (List Nat)) (amount : Nat) : Except String Instruction := do
  let _ ← check_program_account token_program_id
  let accounts := [AccountMeta.new source_pubkey false,
    AccountMeta.new destination_pubkey false,
    AccountMeta.new_readonly authority_pubkey signer_pubkeys.isEmpty] ++
    signer_pubkeys.map (fun p => AccountMeta.new_readonly p true)
  Except.ok ⟨token_program_id, accounts, 3 :: u64le amount⟩

/-- `system_instruction::transfer`: bincode of
`SystemInstruction::Transfer { lamports }` (variant index 2 as `u32` LE,
then the lamports as `u64` LE), with the funding account writable-signer and
the recipient writable. -/
def system_transfer (from_pubkey to_pubkey : List Nat) (lamports : Nat) : Instruction :=
  ⟨system_program_id,
    [AccountMeta.new from_pubkey true, AccountMeta.new to_pubkey false],
    leBytes 4 2 ++ u64le lamports⟩

/-! ## The ed25519 boundary (`ed25519_dalek`)

The cryptographic primitives are abstracted as a record of operations; key
and signature byte strings are `List Nat`.  `Keypair::to_bytes` is the
64-byte secret-then-public concatenation; `Keypair::from_bytes` requires
exactly 64 bytes whose upper half is a valid public key;
`Signature::from_bytes` requires 64 bytes passing the crate's scalar check. -/

structure DalekOps where
  /-- Whether 32 bytes decompress to a valid curve point
  (`PublicKey::from_bytes` succeeding). -/
  pkValid : List Nat → Bool
  /-- The extra check of `Signature::from_bytes` beyond the length. -/
  sigCheck : List Nat → Bool
  /-- `keypair.sign(msg).to_bytes()`, from the 64 keypair bytes. -/
  sign : List Nat → List Nat → List Nat
  /-- `pubkey.verify(msg, sig).is_ok()`. -/
  verify : List Nat → List Nat → List Nat → Bool

/-- `ed25519_dalek::Keypair::from_bytes`. -/
def dalek_keypair_from_bytes (ops : DalekOps) (b : List Nat) : Option (List Nat) :=
  if b.length = 64 ∧ ops.pkValid (b.drop 32) = true then some b else none

/-- `ed25519_dalek::PublicKey::from_bytes`. -/
def dalek_public_key_from_bytes (ops : DalekOps) (b : List Nat) : Option (List Nat) :=
  if b.length = 32 ∧ ops.pkValid b = true then some b else none

/-- `ed25519_dalek::Signature::from_bytes`. -/
def dalek_signature_from_bytes (ops : DalekOps) (b : List Nat) : Option (List Nat)  :=
  if b.length = 64 ∧ ops.sigCheck b = true then some b else none

/-! ## Response envelope and DTOs (`main.rs`) -/

structure ApiResponse (T : Type) where
  success : Bool
  data : Option T
  error : Option String
deriving DecidableEq

/-- `ApiResponse::ok`. -/
def ApiResponse.ok {T : Type} (d : T) : ApiResponse T :=
  ⟨true, some d, none⟩

/-- `ApiResponse::err`. -/
def ApiResponse.err {T : Type} (msg : String) : ApiResponse T :=
  ⟨false, none, some msg⟩

/-- `type ApiResult<T> = Result<Json<ApiResponse<T>>, Json<ApiResponse<()>>>`. -/
abbrev ApiResult (T : Type) : Type := Except (ApiResponse Unit) (ApiResponse T)

deriving instance DecidableEq for Except

structure KeypairData where
  pubkey : String
  secret : String
deriving DecidableEq

structure CreateTokenRequest where
  mintAuthority : String
  mint : String
  decimals : Nat
deriving DecidableEq

structure AccountMetaInfo where
  pubkey : String
  is_signer : Bool
  is_writable : Bool
deriving DecidableEq

structure InstructionData where
  program_id : String
  accounts : List AccountMetaInfo
  instruction_data : String
deriving DecidableEq

structure MintTokenRequest where
  mint : String
  destination : String
  authority : String
  amount : Nat
deriving DecidableEq

structure SignMessageRequest where
  message : String
  secret : String
deriving DecidableEq

structure SignMessageData where
  signature : String
  public_key : String
  message : String
deriving DecidableEq

structure VerifyMessageRequest where
  message : String
  signature : String
  pubkey : String
deriving DecidableEq

structure VerifyMessageData where
  valid : Bool
  message : String
  pubkey : String
deriving DecidableEq

/-- `SendSolRequest`; the fields `from` and `to` of the Rust struct are
spelled `from_` and `to_` because both are Lean keywords. -/
structure SendSolRequest where
  from_ : String
  to_ : String
  lamports : Nat
deriving DecidableEq

structure SendSolData where
  program_id : String
  accounts : List String
  instruction_data : String
deriving DecidableEq

structure SendTokenRequest where
  destination : String
  mint : String
  owner : String
  amount : Nat
deriving DecidableEq

/-! ## Handlers

Each `.map_err(|_| Json(ApiResponse::err(..)))?` of the Rust source becomes
`orErr` (for `Option` results) or `orErrInstr` (for the SDK instruction
builders, whose error is formatted into the message). -/

def orErr {α : Type} (o : Option α) (msg : String) : Except (ApiResponse Unit) α :=
  match o with
  | some a => Except.ok a
  | none => Except.error (ApiResponse.err msg)

def orErrInstr {α : Type} (r : Except String α) : Except (ApiResponse Unit) α :=
  match r with
  | Except.ok a => Except.ok a
  | Except.error e => Except.error (ApiResponse.err ("Instruction error: " ++ e))

/-- `generate_keypair`; the randomly generated `Keypair::new()` is passed in
as its 64 bytes `kp` (secret half then public half). -/
def generate_keypair (kp : List Nat) : Except (ApiResponse Unit) (ApiResponse KeypairData) :=
  Except.ok (ApiResponse.ok ⟨b58encode (kp.drop 32), b58encode kp⟩)

def instructionDataOf (instr : Instruction) : InstructionData :=
  ⟨pubkeyToString instr.program_id,
    instr.accounts.map (fun a => ⟨pubkeyToString a.pubkey, a.is_signer, a.is_writable⟩),
    b64encode instr.data⟩

def create_token (payload : CreateTokenRequest) : Except (ApiResponse Unit) (ApiResponse InstructionData) := do
  let mint ← orErr (pubkeyFromStr payload.mint) "Invalid mint pubkey"
  let authority ← orErr (pubkeyFromStr payload.mintAuthority) "Invalid authority pubkey"
  let instr ← orErrInstr (initialize_mint spl_token_id mint authority none payload.decimals)
  Except.ok (ApiResponse.ok (instructionDataOf instr))

def mint_token (payload : MintTokenRequest) : Except (ApiResponse Unit) (ApiResponse InstructionData) := do
  let mint ← orErr (pubkeyFromStr payload.mint) "Invalid mint pubkey"
  let dest ← orErr (pubkeyFromStr payload.destination) "Invalid destination pubkey"
  let auth ← orErr (pubkeyFromStr payload.authority) "Invalid authority pubkey"
  let instr ← orErrInstr (mint_to spl_token_id mint dest auth [] payload.amount)
  Except.ok (ApiResponse.ok (instructionDataOf instr))

def sign_message (ops : DalekOps) (payload : SignMessageRequest) :
    Except (ApiResponse Unit) (ApiResponse SignMessageData) := do
  let secret_bytes ← orErr (b58decode payload.secret) "Invalid secret"
  let keypair ← orErr (dalek_keypair_from_bytes ops secret_bytes) "Invalid secret bytes"
  let sig := ops.sign keypair (strBytes payload.message)
  Except.ok (ApiResponse.ok ⟨b64encode sig, b58encode (keypair.drop 32), payload.message⟩)

def verify_message (ops : DalekOps) (payload : VerifyMessageRequest) :
    Except (ApiResponse Unit) (ApiResponse VerifyMessageData) := do
  let pubkey_bytes ← orErr (b58decode payload.pubkey) "Invalid pubkey"
  let sig_bytes ← orErr (b64decode payload.signature) "Invalid signature"
  let pubkey ← orErr (dalek_public_key_from_bytes ops pubkey_bytes) "Invalid pubkey bytes"
  let sig ← orErr (dalek_signature_from_bytes ops sig_bytes) "Invalid signature bytes"
  let valid := ops.verify pubkey (strBytes payload.message) sig
  Except.ok (ApiResponse.ok ⟨valid, payload.message, payload.pubkey⟩)

def send_sol (payload : SendSolRequest) : Except (ApiResponse Unit) (ApiResponse SendSolData) := do
  let fromPk ← orErr (pubkeyFromStr payload.from_) "Invalid from"
  let toPk ← orErr (pubkeyFromStr payload.to_) "Invalid to"
  let instr := system_transfer fromPk toPk payload.lamports
  Except.ok (ApiResponse.ok ⟨pubkeyToString instr.program_id,
    instr.accounts.map (fun a => pubkeyToString a.pubkey),
    b64encode instr.data⟩)

def send_token (payload : SendTokenRequest) : Except (ApiResponse Unit) (ApiResponse InstructionData) := do
  let mint ← orErr (pubkeyFromStr payload.mint) "Invalid mint"
  let dest ← orErr (pubkeyFromStr payload.destination) "Invalid destination"
  let owner ← orErr (pubkeyFromStr payload.owner) "Invalid owner"
  let instr ← orErrInstr (spl_transfer spl_token_id mint dest owner [] payload.amount)
  Except.ok (ApiResponse.ok (instructionDataOf instr))

/-! ## Characterization lemmas for the handlers -/

theorem check_program_account_id : check_program_account spl_token_id = Except.ok () := by
  simp [check_program_account]

theorem initialize_mint_eq (mint auth : List Nat) (dec : Nat) :
    initialize_mint spl_token_id mint auth none dec =
      Except.ok ⟨spl_token_id,
        [AccountMeta.new mint false, AccountMeta.new_readonly sysvar_rent_id false],
        0 :: dec :: (auth ++ [0])⟩ := by
  simp only [initialize_mint, check_program_account_id]
  rfl

theorem mint_to_eq (mint dest auth : List Nat) (amt : Nat) :
    mint_to spl_token_id mint dest auth [] amt =
      Except.ok ⟨spl_token_id,
        [AccountMeta.new mint false, AccountMeta.new dest false,
          AccountMeta.new_readonly auth true],
        7 :: u64le amt⟩ := by
  simp only [mint_to, check_program_account_id, List.isEmpty]
  rfl

theorem spl_transfer_eq (src dest auth : List Nat) (amt : Nat) :
    spl_transfer spl_token_id src dest auth [] amt =
      Except.ok ⟨spl_token_id,
        [AccountMeta.new src false, AccountMeta.new dest false,
          AccountMeta.new_readonly auth true],
        3 :: u64le amt⟩ := by
  simp only [spl_transfer, check_program_account_id, List.isEmpty]
  rfl

/-- A handler result that is either a full success envelope or a full error
envelope. -/
def isOkOrErr {T : Type} (r : Except (ApiResponse Unit) (ApiResponse T)) : Prop :=
  (∃ d, r = Except.ok (ApiResponse.ok d)) ∨ (∃ m, r = Except.error (ApiResponse.err m))

theorem isOkOrErr_bind_orErr {α T : Type} (o : Option α) (msg : String)
    (f : α → Except (ApiResponse Unit) (ApiResponse T)) (hf : ∀ a, isOkOrErr (f a)) :
    isOkOrErr (orErr o msg >>= f) := by
  cases o with
  | none => exact Or.inr ⟨msg, rfl⟩
  | some a => exact hf a

theorem isOkOrErr_bind_orErrInstr {α T : Type} (r : Except String α)
    (f : α → Except (ApiResponse Unit) (ApiResponse T)) (hf : ∀ a, isOkOrErr (f a)) :
    isOkOrErr (orErrInstr r >>= f) := by
  cases r with
  | error e => exact Or.inr ⟨"Instruction error: " ++ e, rfl⟩
  | ok a => exact hf a

theorem isOkOrErr_pure {T : Type} (d : T) :
    isOkOrErr (Except.ok (ApiResponse.ok d)) := Or.inl ⟨d, rfl⟩

theorem create_token_isOkOrErr (req : CreateTokenRequest) :
    isOkOrErr (create_token req) := by
  unfold create_token
  refine isOkOrErr_bind_orErr _ _ _ fun mint => ?_
  refine isOkOrErr_bind_orErr _ _ _ fun auth => ?_
  refine isOkOrErr_bind_orErrInstr _ _ fun instr => ?_
  exact isOkOrErr_pure _

theorem mint_token_isOkOrErr (req : MintTokenRequest) :
    isOkOrErr (mint_token req) := by
  unfold mint_token
  refine isOkOrErr_bind_orErr _ _ _ fun mint => ?_
  refine isOkOrErr_bind_orErr _ _ _ fun dest => ?_
  refine isOkOrErr_bind_orErr _ _ _ fun auth => ?_
  refine isOkOrErr_bind_orErrInstr _ _ fun instr => ?_
  exact isOkOrErr_pure _

theorem sign_message_isOkOrErr (ops : DalekOps) (req : SignMessageRequest) :
    isOkOrErr (sign_message ops req) := by
  unfold sign_message
  refine isOkOrErr_bind_orErr _ _ _ fun sb => ?_
  refine isOkOrErr_bind_orErr _ _ _ fun kpb => ?_
  exact isOkOrErr_pure _

theorem verify_message_isOkOrErr (ops : DalekOps) (req : VerifyMessageRequest) :
    isOkOrErr (verify_message ops req) := by
  unfold verify_message
  refine isOkOrErr_bind_orErr _ _ _ fun pb => ?_
  refine isOkOrErr_bind_orErr _ _ _ fun sb => ?_
  refine isOkOrErr_bind_orErr _ _ _ fun pk => ?_
  refine isOkOrErr_bind_orErr _ _ _ fun sg => ?_
  exact isOkOrErr_pure _

theorem send_sol_isOkOrErr (req : SendSolRequest) :
    isOkOrErr (send_sol req) := by
  unfold send_sol
  refine isOkOrErr_bind_orErr _ _ _ fun f => ?_
  refine isOkOrErr_bind_orErr _ _ _ fun t => ?_
  exact isOkOrErr_pure _

theorem send_token_isOkOrErr (req : SendTokenRequest) :
    isOkOrErr (send_token req) := by
  unfold send_token
  refine isOkOrErr_bind_orErr _ _ _ fun mint => ?_
  refine isOkOrErr_bind_orErr _ _ _ fun dest => ?_
  refine isOkOrErr_bind_orErr _ _ _ fun owner => ?_
  refine isOkOrErr_bind_orErrInstr _ _ fun instr => ?_
  exact isOkOrErr_pure _

theorem generate_keypair_isOkOrErr (kp : List Nat) :
    isOkOrErr (generate_keypair kp) := isOkOrErr_pure _

/-! ## Claim theorems -/

/-- The shared response envelope invariant: the success flag decides which
of the two optional fields is present. -/
def envelopeOk {T : Type} (r : ApiResponse T) : Prop :=
  (r.success = true → r.data.isSome = true ∧ r.error = none) ∧
  (r.success = false → r.error.isSome = true ∧ r.data = none)

def resultEnvelopeOk {T : Type} (r : Except (ApiResponse Unit) (ApiResponse T)) : Prop :=
  match r with
  | Except.ok a => envelopeOk a
  | Except.error e => envelopeOk e

theorem resultEnvelopeOk_of_isOkOrErr {T : Type}
    (r : Except (ApiResponse Unit) (ApiResponse T)) (h : isOkOrErr r) :
    resultEnvelopeOk r := by
  rcases h with ⟨d, rfl⟩ | ⟨m, rfl⟩ <;>
    simp [resultEnvelopeOk, envelopeOk, ApiResponse.ok, ApiResponse.err]

/-- C6: every response from every endpoint uses the shared envelope: it
carries a success flag, and exactly one of the data payload or the error
string is present — `success = true` implies data present and error absent,
`success = false` implies error present and data absent. -/
theorem c6_response_envelope :
    (∀ kp, resultEnvelopeOk (generate_keypair kp)) ∧
    (∀ req, resultEnvelopeOk (create_token req)) ∧
    (∀ req, resultEnvelopeOk (mint_token req)) ∧
    (∀ ops req, resultEnvelopeOk (sign_message ops req)) ∧
    (∀ ops req, resultEnvelopeOk (verify_message ops req)) ∧
    (∀ req, resultEnvelopeOk (send_sol req)) ∧
    (∀ req, resultEnvelopeOk (send_token req)) :=
  ⟨fun kp => resultEnvelopeOk_of_isOkOrErr _ (generate_keypair_isOkOrErr kp),
   fun req => resultEnvelopeOk_of_isOkOrErr _ (create_token_isOkOrErr req),
   fun req => resultEnvelopeOk_of_isOkOrErr _ (mint_token_isOkOrErr req),
   fun ops req => resultEnvelopeOk_of_isOkOrErr _ (sign_message_isOkOrErr ops req),
   fun ops req => resultEnvelopeOk_of_isOkOrErr _ (verify_message_isOkOrErr ops req),
   fun req => resultEnvelopeOk_of_isOkOrErr _ (send_sol_isOkOrErr req),
   fun req => resultEnvelopeOk_of_isOkOrErr _ (send_token_isOkOrErr req)⟩

/-- C4: every instruction-building endpoint (create-token, mint-to, native
transfer, token transfer) is deterministic: two requests with identical
input fields yield identical responses (hence identical program id, account
list — keys, flags, order — and base64 payload). -/
theorem c4_builders_deterministic :
    (∀ r1 r2 : CreateTokenRequest, r1.mintAuthority = r2.mintAuthority →
      r1.mint = r2.mint → r1.decimals = r2.decimals →
      create_token r1 = create_token r2) ∧
    (∀ r1 r2 : MintTokenRequest, r1.mint = r2.mint → r1.destination = r2.destination →
      r1.authority = r2.authority → r1.amount = r2.amount →
      mint_token r1 = mint_token r2) ∧
    (∀ r1 r2 : SendSolRequest, r1.from_ = r2.from_ → r1.to_ = r2.to_ →
      r1.lamports = r2.lamports → send_sol r1 = send_sol r2) ∧
    (∀ r1 r2 : SendTokenRequest, r1.destination = r2.destination → r1.mint = r2.mint →
      r1.owner = r2.owner → r1.amount = r2.amount →
      send_token r1 = send_token r2) := by
  refine ⟨?_, ?_, ?_, ?_⟩
  · rintro ⟨a1, b1, c1⟩ ⟨a2, b2, c2⟩ h1 h2 h3
    simp only at h1 h2 h3
    subst h1; subst h2; subst h3
    rfl
  · rintro ⟨a1, b1, c1, d1⟩ ⟨a2, b2, c2, d2⟩ h1 h2 h3 h4
    simp only at h1 h2 h3 h4
    subst h1; subst h2; subst h3; subst h4
    rfl
  · rintro ⟨a1, b1, c1⟩ ⟨a2, b2, c2⟩ h1 h2 h3
    simp only at h1 h2 h3
    subst h1; subst h2; subst h3
    rfl
  · rintro ⟨a1, b1, c1, d1⟩ ⟨a2, b2, c2, d2⟩ h1 h2 h3 h4
    simp only at h1 h2 h3 h4
    subst h1; subst h2; subst h3; subst h4
    rfl

theorem c4_builders_deterministic_witness :
    create_token ⟨"a", "b", 1⟩ = create_token ⟨"a", "b", 1⟩ ∧
    mint_token ⟨"a", "b", "c", 2⟩ = mint_token ⟨"a", "b", "c", 2⟩ ∧
    send_sol ⟨"a", "b", 3⟩ = send_sol ⟨"a", "b", 3⟩ ∧
    send_token ⟨"a", "b", "c", 4⟩ = send_token ⟨"a", "b", "c", 4⟩ :=
  ⟨c4_builders_deterministic.1 ⟨"a", "b", 1⟩ ⟨"a", "b", 1⟩ rfl rfl rfl,
   c4_builders_deterministic.2.1 ⟨"a", "b", "c", 2⟩ ⟨"a", "b", "c", 2⟩ rfl rfl rfl rfl,
   c4_builders_deterministic.2.2.1 ⟨"a", "b", 3⟩ ⟨"a", "b", 3⟩ rfl rfl rfl,
   c4_builders_deterministic.2.2.2 ⟨"a", "b", "c", 4⟩ ⟨"a", "b", "c", 4⟩ rfl rfl rfl rfl⟩

/-- A result that is the error envelope (with some message). -/
def isErrEnvelope {T : Type} (r : Except (ApiResponse Unit) (ApiResponse T)) : Prop :=
  ∃ m, r = Except.error (ApiResponse.err m)

theorem isErrEnvelope_bind_orErr {α T : Type} (o : Option α) (msg : String)
    (f : α → Except (ApiResponse Unit) (ApiResponse T)) (hf : ∀ a, isErrEnvelope (f a)) :
    isErrEnvelope (orErr o msg >>= f) := by
  cases o with
  | none => exact ⟨msg, rfl⟩
  | some a => exact hf a

theorem isErrEnvelope_bind_orErr_none {α T : Type} (o : Option α) (msg : String)
    (f : α → Except (ApiResponse Unit) (ApiResponse T)) (h : o = none) :
    isErrEnvelope (orErr o msg >>= f) := by
  subst h
  exact ⟨msg, rfl⟩

theorem pubkeyFromStr_none_of_b58decode_none (s : String) (h : b58decode s = none) :
    pubkeyFromStr s = none := by
  unfold pubkeyFromStr
  simp [h]

/-- C3: for every syntactically invalid key string (one that fails base-58
decoding), every endpoint that consumes a key field — create-token (both key
fields), mint-to (all three), sign (the secret), verify (the pubkey), native
transfer (both), token transfer (all three) — returns the error envelope and
never the success envelope. -/
theorem c3_invalid_key_rejected (s : String) (hs : b58decode s = none) :
    (∀ auth dec, isErrEnvelope (create_token ⟨auth, s, dec⟩)) ∧
    (∀ mint dec, isErrEnvelope (create_token ⟨s, mint, dec⟩)) ∧
    (∀ d a amt, isErrEnvelope (mint_token ⟨s, d, a, amt⟩)) ∧
    (∀ m a amt, isErrEnvelope (mint_token ⟨m, s, a, amt⟩)) ∧
    (∀ m d amt, isErrEnvelope (mint_token ⟨m, d, s, amt⟩)) ∧
    (∀ ops msg, isErrEnvelope (sign_message ops ⟨msg, s⟩)) ∧
    (∀ ops msg sig, isErrEnvelope (verify_message ops ⟨msg, sig, s⟩)) ∧
    (∀ t lam, isErrEnvelope (send_sol ⟨s, t, lam⟩)) ∧
    (∀ f lam, isErrEnvelope (send_sol ⟨f, s, lam⟩)) ∧
    (∀ m o amt, isErrEnvelope (send_token ⟨s, m, o, amt⟩)) ∧
    (∀ d o amt, isErrEnvelope (send_token ⟨d, s, o, amt⟩)) ∧
    (∀ d m amt, isErrEnvelope (send_token ⟨d, m, s, amt⟩)) := by
  have hp : pubkeyFromStr s = none := pubkeyFromStr_none_of_b58decode_none s hs
  refine ⟨?_, ?_, ?_, ?_, ?_, ?_, ?_, ?_, ?_, ?_, ?_, ?_⟩
  · intro auth dec
    unfold create_token
    exact isErrEnvelope_bind_orErr_none _ _ _ hp
  · intro mint dec
    unfold create_token
    refine isErrEnvelope_bind_orErr _ _ _ fun mk => ?_
    exact isErrEnvelope_bind_orErr_none _ _ _ hp
  · intro d a amt
    unfold mint_token
    exact isErrEnvelope_bind_orErr_none _ _ _ hp
  · intro m a amt
    unfold mint_token
    refine isErrEnvelope_bind_orErr _ _ _ fun mk => ?_
    exact isErrEnvelope_bind_orErr_none _ _ _ hp
  · intro m d amt
    unfold mint_token
    refine isErrEnvelope_bind_orErr _ _ _ fun mk => ?_
    refine isErrEnvelope_bind_orErr _ _ _ fun dk => ?_
    exact isErrEnvelope_bind_orErr_none _ _ _ hp
  · intro ops msg
    unfold sign_message
    exact isErrEnvelope_bind_orErr_none _ _ _ hs
  · intro ops msg sig
    unfold verify_message
    exact isErrEnvelope_bind_orErr_none _ _ _ hs
  · intro t lam
    unfold send_sol
    exact isErrEnvelope_bind_orErr_none _ _ _ hp
  · intro f lam
    unfold send_sol
    refine isErrEnvelope_bind_orErr _ _ _ fun fk => ?_
    exact isErrEnvelope_bind_orErr_none _ _ _ hp
  · intro m o amt
    unfold send_token
    refine isErrEnvelope_bind_orErr _ _ _ fun mk => ?_
    exact isErrEnvelope_bind_orErr_none _ _ _ hp
  · intro d o amt
    unfold send_token
    exact isErrEnvelope_bind_orErr_none _ _ _ hp
  · intro d m amt
    unfold send_token
    refine isErrEnvelope_bind_orErr _ _ _ fun mk => ?_
    refine isErrEnvelope_bind_orErr _ _ _ fun dk => ?_
    exact isErrEnvelope_bind_orErr_none _ _ _ hp

theorem c3_invalid_key_rejected_witness :
    b58decode "!!!" = none ∧
    isErrEnvelope (create_token ⟨"a", "!!!", 1⟩) ∧
    isErrEnvelope (sign_message ⟨fun _ => true, fun _ => true, fun _ _ => [],
      fun _ _ _ => true⟩ ⟨"msg", "!!!"⟩) :=
  ⟨by decide,
   (c3_invalid_key_rejected "!!!" (by decide)).1 "a" 1,
   (c3_invalid_key_rejected "!!!" (by decide)).2.2.2.2.2.1 _ "msg"⟩

theorem bind_orErr_eq_error {α T : Type} (o : Option α) (msg : String)
    (f : α → Except (ApiResponse Unit) (ApiResponse T)) (r : ApiResponse Unit)
    (h : (orErr o msg >>= f) = Except.error r) :
    r = ApiResponse.err msg ∨ ∃ a, o = some a ∧ f a = Except.error r := by
  cases o with
  | none =>
      left
      have h' : Except.error (ApiResponse.err msg) = (Except.error r :
        Except (ApiResponse Unit) (ApiResponse T)) := h
      cases h'
      rfl
  | some a => exact Or.inr ⟨a, rfl, h⟩

theorem bind_orErrInstr_ok_eq_error {α T : Type} (a : α)
    (f : α → Except (ApiResponse Unit) (ApiResponse T)) (r : ApiResponse Unit)
    (h : (orErrInstr (Except.ok a) >>= f) = Except.error r) :
    f a = Except.error r := h

/-- C5: every error response any handler can produce is a generic textual
message in the error envelope caused by a malformed key encoding or a
malformed secret/signature encoding (the third possible source, an error
surfaced by the wrapped SDK instruction builders, never fires because the
handlers always pass the SPL token program's own id); no other failure path
reaches the response. -/
theorem c5_error_taxonomy :
    (∀ kp r, generate_keypair kp ≠ Except.error r) ∧
    (∀ req r, create_token req = Except.error r →
      r = ApiResponse.err "Invalid mint pubkey" ∨
      r = ApiResponse.err "Invalid authority pubkey") ∧
    (∀ req r, mint_token req = Except.error r →
      r = ApiResponse.err "Invalid mint pubkey" ∨
      r = ApiResponse.err "Invalid destination pubkey" ∨
      r = ApiResponse.err "Invalid authority pubkey") ∧
    (∀ ops req r, sign_message ops req = Except.error r →
      r = ApiResponse.err "Invalid secret" ∨
      r = ApiResponse.err "Invalid secret bytes") ∧
    (∀ ops req r, verify_message ops req = Except.error r →
      r = ApiResponse.err "Invalid pubkey" ∨
      r = ApiResponse.err "Invalid signature" ∨
      r = ApiResponse.err "Invalid pubkey bytes" ∨
      r = ApiResponse.err "Invalid signature bytes") ∧
    (∀ req r, send_sol req = Except.error r →
      r = ApiResponse.err "Invalid from" ∨
      r = ApiResponse.err "Invalid to") ∧
    (∀ req r, send_token req = Except.error r →
      r = ApiResponse.err "Invalid mint" ∨
      r = ApiResponse.err "Invalid destination" ∨
      r = ApiResponse.err "Invalid owner") := by
  refine ⟨?_, ?_, ?_, ?_, ?_, ?_, ?_⟩
  · intro kp r h
    exact Except.noConfusion h
  · intro req r h
    unfold create_token at h
    rcases bind_orErr_eq_error _ _ _ _ h with h1 | ⟨mint, hm, h⟩
    · exact Or.inl h1
    rcases bind_orErr_eq_error _ _ _ _ h with h1 | ⟨auth, ha, h⟩
    · exact Or.inr h1
    rw [initialize_mint_eq] at h
    exact Except.noConfusion (bind_orErrInstr_ok_eq_error _ _ _ h)
  · intro req r h
    unfold mint_token at h
    rcases bind_orErr_eq_error _ _ _ _ h with h1 | ⟨mint, hm, h⟩
    · exact Or.inl h1
    rcases bind_orErr_eq_error _ _ _ _ h with h1 | ⟨dest, hd, h⟩
    · exact Or.inr (Or.inl h1)
    rcases bind_orErr_eq_error _ _ _ _ h with h1 | ⟨auth, ha, h⟩
    · exact Or.inr (Or.inr h1)
    rw [mint_to_eq] at h
    exact Except.noConfusion (bind_orErrInstr_ok_eq_error _ _ _ h)
  · intro ops req r h
    unfold sign_message at h
    rcases bind_orErr_eq_error _ _ _ _ h with h1 | ⟨sb, hsb, h⟩
    · exact Or.inl h1
    rcases bind_orErr_eq_error _ _ _ _ h with h1 | ⟨kpb, hkp, h⟩
    · exact Or.inr h1
    exact Except.noConfusion h
  · intro ops req r h
    unfold verify_message at h
    rcases bind_orErr_eq_error _ _ _ _ h with h1 | ⟨pb, hpb, h⟩
    · exact Or.inl h1
    rcases bind_orErr_eq_error _ _ _ _ h with h1 | ⟨sb, hsb, h⟩
    · exact Or.inr (Or.inl h1)
    rcases bind_orErr_eq_error _ _ _ _ h with h1 | ⟨pk, hpk, h⟩
    · exact Or.inr (Or.inr (Or.inl h1))
    rcases bind_orErr_eq_error _ _ _ _ h with h1 | ⟨sg, hsg, h⟩
    · exact Or.inr (Or.inr (Or.inr h1))
    exact Except.noConfusion h
  · intro req r h
    unfold send_sol at h
    rcases bind_orErr_eq_error _ _ _ _ h with h1 | ⟨fk, hf, h⟩
    · exact Or.inl h1
    rcases bind_orErr_eq_error _ _ _ _ h with h1 | ⟨tk, ht, h⟩
    · exact Or.inr h1
    exact Except.noConfusion h
  · intro req r h
    unfold send_token at h
    rcases bind_orErr_eq_error _ _ _ _ h with h1 | ⟨mint, hm, h⟩
    · exact Or.inl h1
    rcases bind_orErr_eq_error _ _ _ _ h with h1 | ⟨dest, hd, h⟩
    · exact Or.inr (Or.inl h1)
    rcases bind_orErr_eq_error _ _ _ _ h with h1 | ⟨own, ho, h⟩
    · exact Or.inr (Or.inr h1)
    rw [spl_transfer_eq] at h
    exact Except.noConfusion (bind_orErrInstr_ok_eq_error _ _ _ h)

theorem c5_error_taxonomy_witness :
    create_token ⟨"a", "!!!", 1⟩ = Except.error (ApiResponse.err "Invalid mint pubkey") ∧
    (ApiResponse.err "Invalid mint pubkey" = (ApiResponse.err "Invalid mint pubkey" : ApiResponse Unit) ∨
      ApiResponse.err "Invalid mint pubkey" = (ApiResponse.err "Invalid authority pubkey" : ApiResponse Unit)) :=
  ⟨by decide, c5_error_taxonomy.2.1 ⟨"a", "!!!", 1⟩ (ApiResponse.err "Invalid mint pubkey") (by decide)⟩

theorem send_sol_success (f t : String) (lam : Nat) (pkf pkt : List Nat)
    (hf : pubkeyFromStr f = some pkf) (ht : pubkeyFromStr t = some pkt) :
    send_sol ⟨f, t, lam⟩ = Except.ok (ApiResponse.ok
      ⟨pubkeyToString system_program_id,
        [pubkeyToString pkf, pubkeyToString pkt],
        b64encode (leBytes 4 2 ++ u64le lam)⟩) := by
  unfold send_sol
  rw [hf, ht]
  rfl

theorem system_program_id_str :
    pubkeyToString system_program_id = "11111111111111111111111111111111" := by
  decide

/-- C7: on success, the native transfer endpoint returns the system
program's id (the all-`'1'` base-58 string), an account key list of exactly
the sender key followed by the receiver key as plain strings (no
signer/writable flags in `SendSolData`), and the base64 encoding of the
transfer instruction payload (`u32` LE variant tag 2 followed by the
`u64` LE lamports). -/
theorem c7_send_sol_shape (f t : String) (lam : Nat) (pkf pkt : List Nat)
    (hf : pubkeyFromStr f = some pkf) (ht : pubkeyFromStr t = some pkt) :
    send_sol ⟨f, t, lam⟩ = Except.ok (ApiResponse.ok
      ⟨"11111111111111111111111111111111",
        [pubkeyToString pkf, pubkeyToString pkt],
        b64encode (leBytes 4 2 ++ u64le lam)⟩) := by
  rw [send_sol_success f t lam pkf pkt hf ht, system_program_id_str]

theorem c7_send_sol_shape_witness :
    pubkeyFromStr (b58encode (List.replicate 32 3)) = some (List.replicate 32 3) ∧
    send_sol ⟨b58encode (List.replicate 32 3), b58encode (List.replicate 32 4), 5⟩ =
      Except.ok (ApiResponse.ok
        ⟨"11111111111111111111111111111111",
          [pubkeyToString (List.replicate 32 3), pubkeyToString (List.replicate 32 4)],
          b64encode (leBytes 4 2 ++ u64le 5)⟩) :=
  ⟨by decide,
   c7_send_sol_shape _ _ 5 (List.replicate 32 3) (List.replicate 32 4)
     (by decide) (by decide)⟩

/-- C10: whenever both key fields of a native transfer request parse, the
endpoint returns the success envelope for every lamports value (including 0
and the largest 64-bit value); building the transfer instruction itself has
no failure path. -/
theorem c10_send_sol_total (f t : String) (pkf pkt : List Nat)
    (hf : pubkeyFromStr f = some pkf) (ht : pubkeyFromStr t = some pkt) :
    ∀ lam : Nat, ∃ d, send_sol ⟨f, t, lam⟩ = Except.ok (ApiResponse.ok d) := by
  intro lam
  exact ⟨_, send_sol_success f t lam pkf pkt hf ht⟩

theorem c10_send_sol_total_witness :
    (∃ d, send_sol ⟨b58encode (List.replicate 32 3), b58encode (List.replicate 32 4), 0⟩ =
      Except.ok (ApiResponse.ok d)) ∧
    (∃ d, send_sol ⟨b58encode (List.replicate 32 3), b58encode (List.replicate 32 4),
        18446744073709551615⟩ = Except.ok (ApiResponse.ok d)) :=
  ⟨c10_send_sol_total _ _ (List.replicate 32 3) (List.replicate 32 4)
     (by decide) (by decide) 0,
   c10_send_sol_total _ _ (List.replicate 32 3) (List.replicate 32 4)
     (by decide) (by decide) 18446744073709551615⟩

theorem orErr_some_bind {α T : Type} (a : α) (msg : String)
    (f : α → Except (ApiResponse Unit) (ApiResponse T)) :
    (orErr (some a) msg >>= f) = f a := rfl

theorem orErr_none_bind {α T : Type} (msg : String)
    (f : α → Except (ApiResponse Unit) (ApiResponse T)) :
    (orErr (none : Option α) msg >>= f) = Except.error (ApiResponse.err msg) := rfl

/-- C8: when the verify endpoint receives a pubkey that base-58 decodes to a
valid key and a signature that base-64 decodes to a valid signature, but the
signature does not verify over the message, it returns the success envelope
with `valid = false` — never the error envelope. -/
theorem c8_verify_false_success (ops : DalekOps) (msg pkS sigS : String)
    (pkB sigB : List Nat)
    (hpk : b58decode pkS = some pkB)
    (hsig : b64decode sigS = some sigB)
    (hpkb : dalek_public_key_from_bytes ops pkB = some pkB)
    (hsgb : dalek_signature_from_bytes ops sigB = some sigB)
    (hv : ops.verify pkB (strBytes msg) sigB = false) :
    verify_message ops ⟨msg, sigS, pkS⟩ =
      Except.ok (ApiResponse.ok ⟨false, msg, pkS⟩) := by
  unfold verify_message
  simp only [hpk, hsig, hpkb, hsgb, orErr_some_bind, hv]

/-- A concrete instantiation of the ed25519 boundary, used to exercise the
conditional theorems on explicit inputs. -/
def toyOps : DalekOps where
  pkValid := fun _ => true
  sigCheck := fun _ => true
  sign := fun kp m => kp.drop 32 ++ (m ++ List.replicate 32 0).take 32
  verify := fun pk m s => decide (s = pk ++ (m ++ List.replicate 32 0).take 32)

/-- `toyOps` with the signature check of `ed25519_dalek` 1.x
`Signature::from_bytes`: the top three bits of byte 63 (`upper[31] & 224`)
must be clear, i.e. (on byte values below 256) byte 63 is below 32. -/
def scalarCheckOps : DalekOps :=
  { toyOps with sigCheck := fun b => decide (b.getD 63 0 < 32) }

theorem c8_verify_false_success_witness :
    toyOps.verify (List.replicate 32 1) (strBytes "m") (List.replicate 64 9) = false ∧
    verify_message toyOps ⟨"m", b64encode (List.replicate 64 9),
        b58encode (List.replicate 32 1)⟩ =
      Except.ok (ApiResponse.ok ⟨false, "m", b58encode (List.replicate 32 1)⟩) :=
  ⟨by decide,
   c8_verify_false_success toyOps "m" (b58encode (List.replicate 32 1))
     (b64encode (List.replicate 64 9)) (List.replicate 32 1) (List.replicate 64 9)
     (by decide) (by decide) (by decide) (by decide) (by decide)⟩

/-- C9: the sign endpoint accepts as its secret exactly the base-58 encoding
of the full 64-byte keypair (secret half then public half) that the
generate-keypair endpoint emits: the generated secret is the base-58
encoding of the 64 keypair bytes; any base-58 input decoding to a different
byte length is rejected with the error envelope; and a 64-byte decoding
(with a valid public half) is accepted. -/
theorem c9_sign_secret_format :
    (∀ kp, generate_keypair kp =
      Except.ok (ApiResponse.ok ⟨b58encode (kp.drop 32), b58encode kp⟩)) ∧
    (∀ (ops : DalekOps) (msg s : String) (bytes : List Nat),
      b58decode s = some bytes → bytes.length ≠ 64 →
      sign_message ops ⟨msg, s⟩ = Except.error (ApiResponse.err "Invalid secret bytes")) ∧
    (∀ (ops : DalekOps) (kp : List Nat) (msg : String),
      kp.length = 64 → (∀ x ∈ kp, x < 256) → ops.pkValid (kp.drop 32) = true →
      sign_message ops ⟨msg, b58encode kp⟩ = Except.ok (ApiResponse.ok
        ⟨b64encode (ops.sign kp (strBytes msg)), b58encode (kp.drop 32), msg⟩)) := by
  refine ⟨fun kp => rfl, ?_, ?_⟩
  · intro ops msg s bytes hdec hlen
    unfold sign_message
    have hkp : dalek_keypair_from_bytes ops bytes = none := by
      unfold dalek_keypair_from_bytes
      rw [if_neg]
      intro hc
      exact hlen hc.1
    simp only [hdec, orErr_some_bind, hkp, orErr_none_bind]
  · intro ops kp msg hlen hbytes hpk
    unfold sign_message
    have hdec : b58decode (b58encode kp) = some kp := b58_roundtrip kp hbytes
    have hkp : dalek_keypair_from_bytes ops kp = some kp := by
      unfold dalek_keypair_from_bytes
      rw [if_pos ⟨hlen, hpk⟩]
    simp only [hdec, orErr_some_bind, hkp]

theorem c9_sign_secret_format_witness :
    b58decode (b58encode (List.replicate 32 5)) = some (List.replicate 32 5) ∧
    (List.replicate 32 5).length ≠ 64 ∧
    sign_message toyOps ⟨"m", b58encode (List.replicate 32 5)⟩ =
      Except.error (ApiResponse.err "Invalid secret bytes") ∧
    sign_message toyOps ⟨"m", b58encode (List.replicate 32 5 ++ List.replicate 32 6)⟩ =
      Except.ok (ApiResponse.ok
        ⟨b64encode (toyOps.sign (List.replicate 32 5 ++ List.replicate 32 6) (strBytes "m")),
          b58encode ((List.replicate 32 5 ++ List.replicate 32 6).drop 32), "m"⟩) :=
  ⟨by decide, by decide,
   c9_sign_secret_format.2.1 toyOps "m" (b58encode (List.replicate 32 5))
     (List.replicate 32 5) (by decide) (by decide),
   c9_sign_secret_format.2.2 toyOps (List.replicate 32 5 ++ List.replicate 32 6) "m"
     (by decide) (by decide) (by decide)⟩

theorem verify_message_result (ops : DalekOps) (m : String) (pkB sigB : List Nat)
    (hpl : pkB.length = 32) (hpv : ops.pkValid pkB = true)
    (hpkbytes : ∀ x ∈ pkB, x < 256)
    (hsl : sigB.length = 64) (hsc : ops.sigCheck sigB = true)
    (hsbytes : ∀ x ∈ sigB, x < 256) :
    verify_message ops ⟨m, b64encode sigB, b58encode pkB⟩ =
      Except.ok (ApiResponse.ok ⟨ops.verify pkB (strBytes m) sigB, m, b58encode pkB⟩) := by
  unfold verify_message
  have hd1 := b58_roundtrip pkB hpkbytes
  have hd2 := b64_roundtrip sigB hsbytes
  have hp : dalek_public_key_from_bytes ops pkB = some pkB := by
    unfold dalek_public_key_from_bytes
    rw [if_pos ⟨hpl, hpv⟩]
  have hs : dalek_signature_from_bytes ops sigB = some sigB := by
    unfold dalek_signature_from_bytes
    rw [if_pos ⟨hsl, hsc⟩]
  simp only [hd1, hd2, hp, hs, orErr_some_bind]

/-- C1: for every keypair emitted by the generate-keypair endpoint (whose
public half is a valid key and whose signature over the message is accepted
by the scheme, as `ed25519_dalek` guarantees for its own keypairs), signing
any message with the returned secret and then verifying the returned
signature against the same message and the returned public key yields a
success response with `valid = true`. -/
theorem c1_sign_verify_roundtrip (ops : DalekOps) (kp : List Nat) (msg : String)
    (hklen : kp.length = 64) (hkbytes : ∀ x ∈ kp, x < 256)
    (hpk : ops.pkValid (kp.drop 32) = true)
    (hsiglen : (ops.sign kp (strBytes msg)).length = 64)
    (hsigbytes : ∀ x ∈ ops.sign kp (strBytes msg), x < 256)
    (hsigchk : ops.sigCheck (ops.sign kp (strBytes msg)) = true)
    (hcorrect : ops.verify (kp.drop 32) (strBytes msg)
      (ops.sign kp (strBytes msg)) = true) :
    generate_keypair kp =
      Except.ok (ApiResponse.ok ⟨b58encode (kp.drop 32), b58encode kp⟩) ∧
    sign_message ops ⟨msg, b58encode kp⟩ = Except.ok (ApiResponse.ok
      ⟨b64encode (ops.sign kp (strBytes msg)), b58encode (kp.drop 32), msg⟩) ∧
    verify_message ops ⟨msg, b64encode (ops.sign kp (strBytes msg)),
        b58encode (kp.drop 32)⟩ =
      Except.ok (ApiResponse.ok ⟨true, msg, b58encode (kp.drop 32)⟩) := by
  refine ⟨rfl, ?_, ?_⟩
  · unfold sign_message
    have hdec : b58decode (b58encode kp) = some kp := b58_roundtrip kp hkbytes
    have hkp : dalek_keypair_from_bytes ops kp = some kp := by
      unfold dalek_keypair_from_bytes
      rw [if_pos ⟨hklen, hpk⟩]
    simp only [hdec, orErr_some_bind, hkp]
  · have hdroplen : (kp.drop 32).length = 32 := by
      rw [List.length_drop]
      omega
    have hdropbytes : ∀ x ∈ kp.drop 32, x < 256 :=
      fun x hx => hkbytes x (List.mem_of_mem_drop hx)
    rw [verify_message_result ops msg (kp.drop 32) (ops.sign kp (strBytes msg))
      hdroplen hpk hdropbytes hsiglen hsigchk hsigbytes, hcorrect]

theorem c1_sign_verify_roundtrip_witness :
    generate_keypair (List.replicate 32 7 ++ List.replicate 32 9) =
      Except.ok (ApiResponse.ok
        ⟨b58encode ((List.replicate 32 7 ++ List.replicate 32 9).drop 32),
          b58encode (List.replicate 32 7 ++ List.replicate 32 9)⟩) ∧
    sign_message toyOps ⟨"hello", b58encode (List.replicate 32 7 ++ List.replicate 32 9)⟩ =
      Except.ok (ApiResponse.ok
        ⟨b64encode (toyOps.sign (List.replicate 32 7 ++ List.replicate 32 9)
            (strBytes "hello")),
          b58encode ((List.replicate 32 7 ++ List.replicate 32 9).drop 32), "hello"⟩) ∧
    verify_message toyOps ⟨"hello",
        b64encode (toyOps.sign (List.replicate 32 7 ++ List.replicate 32 9)
          (strBytes "hello")),
        b58encode ((List.replicate 32 7 ++ List.replicate 32 9).drop 32)⟩ =
      Except.ok (ApiResponse.ok ⟨true, "hello",
        b58encode ((List.replicate 32 7 ++ List.replicate 32 9).drop 32)⟩) :=
  c1_sign_verify_roundtrip toyOps (List.replicate 32 7 ++ List.replicate 32 9) "hello"
    (by decide) (by decide) (by decide) (by decide) (by decide) (by decide) (by decide)

/-- C2 (amended): under the signature-scheme soundness of the ed25519
boundary (verification succeeds exactly on this keypair's signature over the
exact message bytes, and distinct message bytes have distinct signatures),
the verify endpoint reports `valid = true` iff the submitted signature bytes
are the sign endpoint's signature over the identical message bytes with the
secret of the submitted public key; changing the message bytes, or changing
the signature bytes such that the mutated bytes still pass
`Signature::from_bytes`'s scalar check, flips the response to
`valid = false`; a signature mutation that fails that check is instead
rejected with the error envelope "Invalid signature bytes" (the unamended
claim fails there, see the counterexample). -/
theorem c2_verify_iff_mutation (ops : DalekOps) (kp : List Nat) (msg msg' : String)
    (sigB : List Nat)
    (hklen : kp.length = 64) (hkbytes : ∀ x ∈ kp, x < 256)
    (hpk : ops.pkValid (kp.drop 32) = true)
    (hsblen : sigB.length = 64) (hsbbytes : ∀ x ∈ sigB, x < 256)
    (hsbchk : ops.sigCheck sigB = true)
    (hiff : ops.verify (kp.drop 32) (strBytes msg) sigB = true ↔
      sigB = ops.sign kp (strBytes msg))
    (hiff' : ops.verify (kp.drop 32) (strBytes msg') sigB = true ↔
      sigB = ops.sign kp (strBytes msg'))
    (hmut : strBytes msg ≠ strBytes msg' →
      ops.sign kp (strBytes msg') ≠ ops.sign kp (strBytes msg)) :
    (verify_message ops ⟨msg, b64encode sigB, b58encode (kp.drop 32)⟩ =
        Except.ok (ApiResponse.ok ⟨true, msg, b58encode (kp.drop 32)⟩) ↔
      sigB = ops.sign kp (strBytes msg)) ∧
    (strBytes msg ≠ strBytes msg' → sigB = ops.sign kp (strBytes msg) →
      verify_message ops ⟨msg', b64encode sigB, b58encode (kp.drop 32)⟩ =
        Except.ok (ApiResponse.ok ⟨false, msg', b58encode (kp.drop 32)⟩)) ∧
    (sigB ≠ ops.sign kp (strBytes msg) →
      verify_message ops ⟨msg, b64encode sigB, b58encode (kp.drop 32)⟩ =
        Except.ok (ApiResponse.ok ⟨false, msg, b58encode (kp.drop 32)⟩)) ∧
    (∀ sigB' : List Nat, sigB'.length = 64 → (∀ x ∈ sigB', x < 256) →
      ops.sigCheck sigB' = false →
      verify_message ops ⟨msg, b64encode sigB', b58encode (kp.drop 32)⟩ =
        Except.error (ApiResponse.err "Invalid signature bytes")) := by
  have hdroplen : (kp.drop 32).length = 32 := by
    rw [List.length_drop]
    omega
  have hdropbytes : ∀ x ∈ kp.drop 32, x < 256 :=
    fun x hx => hkbytes x (List.mem_of_mem_drop hx)
  have hres : ∀ m : String, verify_message ops ⟨m, b64encode sigB, b58encode (kp.drop 32)⟩ =
      Except.ok (ApiResponse.ok
        ⟨ops.verify (kp.drop 32) (strBytes m) sigB, m, b58encode (kp.drop 32)⟩) :=
    fun m => verify_message_result ops m (kp.drop 32) sigB
      hdroplen hpk hdropbytes hsblen hsbchk hsbbytes
  refine ⟨?_, ?_, ?_, ?_⟩
  · rw [hres msg]
    constructor
    · intro h
      apply hiff.mp
      have h1 : ApiResponse.ok (T := VerifyMessageData)
          ⟨ops.verify (kp.drop 32) (strBytes msg) sigB, msg, b58encode (kp.drop 32)⟩ =
          ApiResponse.ok ⟨true, msg, b58encode (kp.drop 32)⟩ := by
        injection h
      have h2 : ops.verify (kp.drop 32) (strBytes msg) sigB = true := by
        have h3 := congrArg (fun r => (ApiResponse.data r).map VerifyMessageData.valid) h1
        simpa [ApiResponse.ok] using h3
      exact h2
    · intro h
      rw [hiff.mpr h]
  · intro hne hsig
    rw [hres msg']
    have hfalse : ops.verify (kp.drop 32) (strBytes msg') sigB = false := by
      cases hvc : ops.verify (kp.drop 32) (strBytes msg') sigB with
      | false => rfl
      | true =>
          exfalso
          have h1 : sigB = ops.sign kp (strBytes msg') := hiff'.mp hvc
          exact hmut hne (by rw [← h1, hsig])
    rw [hfalse]
  · intro hne
    rw [hres msg]
    have hfalse : ops.verify (kp.drop 32) (strBytes msg) sigB = false := by
      cases hvc : ops.verify (kp.drop 32) (strBytes msg) sigB with
      | false => rfl
      | true => exact absurd (hiff.mp hvc) hne
    rw [hfalse]
  · intro sigB' hlen' hbytes' hchk
    unfold verify_message
    have hd1 := b58_roundtrip (kp.drop 32) hdropbytes
    have hd2 := b64_roundtrip sigB' hbytes'
    have hp : dalek_public_key_from_bytes ops (kp.drop 32) = some (kp.drop 32) := by
      unfold dalek_public_key_from_bytes
      rw [if_pos ⟨hdroplen, hpk⟩]
    have hs : dalek_signature_from_bytes ops sigB' = none := by
      unfold dalek_signature_from_bytes
      rw [if_neg]
      intro hc
      rw [hchk] at hc
      exact Bool.noConfusion hc.2
    simp only [hd1, orErr_some_bind, hd2, hp, hs, orErr_none_bind]

theorem c2_verify_iff_mutation_witness :
    (verify_message scalarCheckOps ⟨"ab",
        b64encode (scalarCheckOps.sign (List.replicate 32 7 ++ List.replicate 32 9)
          (strBytes "ab")),
        b58encode ((List.replicate 32 7 ++ List.replicate 32 9).drop 32)⟩ =
      Except.ok (ApiResponse.ok ⟨true, "ab",
        b58encode ((List.replicate 32 7 ++ List.replicate 32 9).drop 32)⟩) ↔
      scalarCheckOps.sign (List.replicate 32 7 ++ List.replicate 32 9) (strBytes "ab") =
        scalarCheckOps.sign (List.replicate 32 7 ++ List.replicate 32 9) (strBytes "ab")) ∧
    (strBytes "ab" ≠ strBytes "ac" →
      scalarCheckOps.sign (List.replicate 32 7 ++ List.replicate 32 9) (strBytes "ab") =
        scalarCheckOps.sign (List.replicate 32 7 ++ List.replicate 32 9) (strBytes "ab") →
      verify_message scalarCheckOps ⟨"ac",
        b64encode (scalarCheckOps.sign (List.replicate 32 7 ++ List.replicate 32 9)
          (strBytes "ab")),
        b58encode ((List.replicate 32 7 ++ List.replicate 32 9).drop 32)⟩ =
      Except.ok (ApiResponse.ok ⟨false, "ac",
        b58encode ((List.replicate 32 7 ++ List.replicate 32 9).drop 32)⟩)) ∧
    (scalarCheckOps.sign (List.replicate 32 7 ++ List.replicate 32 9) (strBytes "ab") ≠
        scalarCheckOps.sign (List.replicate 32 7 ++ List.replicate 32 9) (strBytes "ab") →
      verify_message scalarCheckOps ⟨"ab",
        b64encode (scalarCheckOps.sign (List.replicate 32 7 ++ List.replicate 32 9)
          (strBytes "ab")),
        b58encode ((List.replicate 32 7 ++ List.replicate 32 9).drop 32)⟩ =
      Except.ok (ApiResponse.ok ⟨false, "ab",
        b58encode ((List.replicate 32 7 ++ List.replicate 32 9).drop 32)⟩)) ∧
    verify_message scalarCheckOps ⟨"ab",
        b64encode ((scalarCheckOps.sign (List.replicate 32 7 ++ List.replicate 32 9)
          (strBytes "ab")).take 63 ++ [224]),
        b58encode ((List.replicate 32 7 ++ List.replicate 32 9).drop 32)⟩ =
      Except.error (ApiResponse.err "Invalid signature bytes") :=
  have h := c2_verify_iff_mutation scalarCheckOps
    (List.replicate 32 7 ++ List.replicate 32 9) "ab" "ac"
    (scalarCheckOps.sign (List.replicate 32 7 ++ List.replicate 32 9) (strBytes "ab"))
    (by decide) (by decide) (by decide) (by decide) (by decide) (by decide)
    (by decide) (by decide) (by decide)
  ⟨h.1, h.2.1, h.2.2.1,
    h.2.2.2 ((scalarCheckOps.sign (List.replicate 32 7 ++ List.replicate 32 9)
      (strBytes "ab")).take 63 ++ [224]) (by decide) (by decide) (by decide)⟩

set_option maxRecDepth 100000 in
/-- Counterexample to the unamended C2: with the scalar check of
`ed25519_dalek` 1.x `Signature::from_bytes`, the signature the sign endpoint
itself produced for `"ab"` (whose byte 63 is 0), mutated in that single byte
to 224 (setting the top three bits), makes the verify endpoint answer with
the error envelope "Invalid signature bytes" — not a success response with
`valid = false` as claimed. -/
theorem c2_verify_iff_mutation_counterexample :
    sign_message scalarCheckOps
      ⟨"ab", b58encode (List.replicate 32 7 ++ List.replicate 32 9)⟩ =
      Except.ok (ApiResponse.ok
        ⟨b64encode (scalarCheckOps.sign (List.replicate 32 7 ++ List.replicate 32 9)
            (strBytes "ab")),
          b58encode ((List.replicate 32 7 ++ List.replicate 32 9).drop 32), "ab"⟩) ∧
    scalarCheckOps.sign (List.replicate 32 7 ++ List.replicate 32 9) (strBytes "ab") =
      (scalarCheckOps.sign (List.replicate 32 7 ++ List.replicate 32 9)
        (strBytes "ab")).take 63 ++ [0] ∧
    verify_message scalarCheckOps ⟨"ab",
        b64encode ((scalarCheckOps.sign (List.replicate 32 7 ++ List.replicate 32 9)
          (strBytes "ab")).take 63 ++ [224]),
        b58encode ((List.replicate 32 7 ++ List.replicate 32 9).drop 32)⟩ =
      Except.error (ApiResponse.err "Invalid signature bytes") := by
  refine ⟨by decide, by decide, by decide⟩

theorem c6_response_envelope_witness :
    resultEnvelopeOk (generate_keypair (List.replicate 64 0)) ∧
    resultEnvelopeOk (create_token ⟨"a", "b", 0⟩) :=
  ⟨c6_response_envelope.1 (List.replicate 64 0),
   c6_response_envelope.2.1 ⟨"a", "b", 0⟩⟩
